import Mathlib

/-!
Shallow embedding of the dashboard core of the pubsub-emulator repository:
the bounded in-memory message store, the broadcast queue, and the
search / replay / statistics operations built on top of it
(internal/dashboard/dashboard.go and internal/dashboard/handlers.go).

Go strings are modelled as lists of characters, `time.Time` values as
integers, and the external broker capability (publish results, paginated
topic/subscription listings) as explicit parameters.  Every definition is
translated from the Go source; definitions whose doc comment says
"spec characterization" restate a sentence of the specification instead,
for comparison with the translated code.
-/

/-- Go strings, modelled as lists of characters. -/
abbrev Str := List Char

/-- Go `strings.ToLower` (character-by-character lowering). -/
def strToLower (s : Str) : Str := s.map Char.toLower

/-- Go `strings.HasPrefix`-style check: does `p` begin `s`? -/
def strStartsWith : Str → Str → Bool
  | _, [] => true
  | [], _ :: _ => false
  | c :: s, p :: ps => c = p && strStartsWith s ps

/-- Go `strings.Contains`: does `sub` occur as a contiguous substring of `s`? -/
def strContains : Str → Str → Bool
  | [], sub => strStartsWith [] sub
  | c :: rest, sub => strStartsWith (c :: rest) sub || strContains rest sub

/-- The fields of `*pubsub.Message` that the dashboard reads:
identifier, payload, attributes and broker publish time. -/
structure PubsubMessage where
  id : Str
  data : Str
  attributes : List (Str × Str)
  publishTime : Int
deriving DecidableEq

/-- `dashboard.MessageInfo` (internal/dashboard/types.go). -/
structure MessageInfo where
  id : Str
  data : Str
  attributes : List (Str × Str)
  publishTime : Int
  topic : Str
  received : Int
deriving DecidableEq

/-- `dashboard.TopicInfo` (internal/dashboard/types.go). -/
structure TopicInfo where
  name : Str
  id : Str
deriving DecidableEq

/-- `dashboard.SubscriptionInfo` (internal/dashboard/types.go). -/
structure SubscriptionInfo where
  name : Str
  id : Str
  topic : Str
  ackDeadlineSeconds : Int
deriving DecidableEq

/-- `dashboard.DashboardStats` (internal/dashboard/types.go).
`lastMessageTime` is a nullable pointer in Go, hence an `Option`. -/
structure DashboardStats where
  topics : List TopicInfo
  subscriptions : List SubscriptionInfo
  messageCount : Nat
  recentMessages : List MessageInfo
  topicCount : Nat
  subCount : Nat
  totalMessages : Nat
  lastMessageTime : Option Int
  topicList : List Str
  subscriptionList : List Str
deriving DecidableEq

/-- The state of `dashboard.Dashboard` (internal/dashboard/dashboard.go):
the stored messages, the retention bound, and the buffered broadcast
channel (queue contents plus its capacity).  The pubsub client handle is
modelled away: broker responses enter as explicit parameters. -/
structure Dashboard where
  projectID : Str
  messages : List MessageInfo
  maxMessages : Nat
  broadcastQueue : List MessageInfo
  broadcastCap : Nat
deriving DecidableEq

/-- `dashboard.New`: empty store, `maxMessages` 1000, broadcast channel
of capacity 256. -/
def Dashboard.new (projectID : Str) : Dashboard where
  projectID := projectID
  messages := []
  maxMessages := 1000
  broadcastQueue := []
  broadcastCap := 256

/-- The `MessageInfo` literal built inside `Dashboard.AddMessage`; note
that the source assigns `Received: msg.PublishTime`. -/
def mkMessageInfo (msg : PubsubMessage) (topic : Str) : MessageInfo where
  id := msg.id
  data := msg.data
  attributes := msg.attributes
  publishTime := msg.publishTime
  topic := topic
  received := msg.publishTime

/-- `Dashboard.AddMessage`: append the message, trim the front when the
length exceeds `maxMessages`, then attempt a non-blocking send of the new
entry on the broadcast channel (dropped when the buffer is full). -/
def Dashboard.AddMessage (d : Dashboard) (msg : PubsubMessage) (topic : Str) : Dashboard :=
  let msgInfo := mkMessageInfo msg topic
  let msgs := d.messages ++ [msgInfo]
  let msgs := if msgs.length > d.maxMessages then msgs.drop (msgs.length - d.maxMessages) else msgs
  let queue :=
    if d.broadcastQueue.length < d.broadcastCap then d.broadcastQueue ++ [msgInfo]
    else d.broadcastQueue
  { d with messages := msgs, broadcastQueue := queue }

/-- Go's `copy` into a freshly `make`d slice, as used by
`Dashboard.GetMessages` and `handleMessages`: an element-by-element copy. -/
def copyList : List α → List α
  | [] => []
  | a :: rest => a :: copyList rest

/-- `Dashboard.GetMessages`: return a copy of the stored messages. -/
def Dashboard.GetMessages (d : Dashboard) : List MessageInfo :=
  copyList d.messages

/-- The first-match linear scan shared by `Dashboard.GetMessageByID` and
the lookup loop in `handleReplay`. -/
def findFirstByID : List MessageInfo → Str → Option MessageInfo
  | [], _ => none
  | m :: rest, id => if m.id = id then some m else findFirstByID rest id

/-- `Dashboard.GetMessageByID`: first message whose ID matches, else nil. -/
def Dashboard.GetMessageByID (d : Dashboard) (id : Str) : Option MessageInfo :=
  findFirstByID d.messages id

/-- `extractID` (internal/dashboard/dashboard.go): scan `fullName` from the
end; on the first `'/'` found at index `i` return the suffix from `i+1`;
return the whole name when no `'/'` occurs.  `extractIDFrom s k` is the
loop with indices `k-1, k-2, ..., 0` still to inspect. -/
def extractIDFrom (s : Str) : Nat → Str
  | 0 => s
  | k + 1 => if s[k]? = some '/' then s.drop (k + 1) else extractIDFrom s k

/-- The Go `extractID` entry point: start the scan at index `length - 1`. -/
def extractID (s : Str) : Str := extractIDFrom s s.length

/-- A broker listing-iterator outcome other than a yielded element:
either normal exhaustion (`iterator.Done`) or a genuine failure. -/
inductive IterErr where
  | done
  | unavailable
deriving DecidableEq

/-- The fields of `pubsubpb.Topic` read by `GetStats`. -/
structure TopicEntry where
  name : Str
deriving DecidableEq

/-- The fields of `pubsubpb.Subscription` read by `GetStats`. -/
structure SubEntry where
  name : Str
  topic : Str
  ackDeadlineSeconds : Int
deriving DecidableEq

/-- The `for { x, err := it.Next(); if err != nil { break } ... }` loops in
`GetStats`: consume yielded elements until the first error (the error is
discarded and the loop simply stops). -/
def collectUntilErr : List (Except IterErr α) → List α
  | [] => []
  | Except.ok a :: rest => a :: collectUntilErr rest
  | Except.error _ :: _ => []

/-- `Dashboard.GetStats`.  The two paginated listings are modelled as the
streams of `it.Next()` results.  The returned `Option IterErr` is the Go
`error` result: the source always returns `nil` for it. -/
def Dashboard.GetStats (d : Dashboard) (topicIter : List (Except IterErr TopicEntry))
    (subIter : List (Except IterErr SubEntry)) : DashboardStats × Option IterErr :=
  let ts := collectUntilErr topicIter
  let ss := collectUntilErr subIter
  let topics := ts.map (fun t => { name := t.name, id := extractID t.name : TopicInfo })
  let topicList := ts.map (fun t => extractID t.name)
  let subscriptions := ss.map (fun s =>
    { name := s.name, id := extractID s.name, topic := s.topic,
      ackDeadlineSeconds := s.ackDeadlineSeconds : SubscriptionInfo })
  let subscriptionList := ss.map (fun s => extractID s.name)
  let stats : DashboardStats := {
    topics := topics
    subscriptions := subscriptions
    messageCount := d.messages.length
    totalMessages := d.messages.length
    topicCount := topics.length
    subCount := subscriptions.length
    lastMessageTime :=
      match d.messages.getLast? with
      | some lastMsg => some lastMsg.received
      | none => none
    recentMessages := d.messages.drop (d.messages.length - 20)
    topicList := topicList
    subscriptionList := subscriptionList }
  (stats, none)

/-- `handleSearchMessages` (internal/dashboard/handlers.go): lower the
search term once, then fold over the stored messages, skipping an entry
when the topic filter is present and differs, or when the search term is
present and occurs in neither the lowered payload nor the lowered ID. -/
def handleSearchMessages (msgs : List MessageInfo) (q topicFilter : Str) : List MessageInfo :=
  let searchTerm := strToLower q
  msgs.foldl
    (fun filtered msg =>
      if topicFilter ≠ [] ∧ msg.topic ≠ topicFilter then filtered
      else if searchTerm ≠ [] ∧ strContains (strToLower msg.data) searchTerm = false ∧
          strContains (strToLower msg.id) searchTerm = false then filtered
      else filtered ++ [msg])
    []

/-- The outcome reported by `handleReplay`: HTTP 400 for a missing ID,
404 when the ID is not stored, 500 carrying the broker failure, or the
success payload with the new and the original message IDs. -/
inductive ReplayResult where
  | badRequest
  | notFound
  | publishError (reason : Str)
  | success (newId originalId : Str)
deriving DecidableEq

/-- `handleReplay` (internal/dashboard/handlers.go).  `pub` is the outcome
of `publisher.Publish(...).Get(ctx)` for the original payload/attributes on
the original topic, and `now` is `time.Now()` at the re-publish.  On
success the new message goes through the normal `AddMessage` path. -/
def handleReplay (d : Dashboard) (messageID : Str) (pub : Except Str Str) (now : Int) :
    ReplayResult × Dashboard :=
  if messageID = [] then (ReplayResult.badRequest, d)
  else
    match findFirstByID d.messages messageID with
    | none => (ReplayResult.notFound, d)
    | some originalMsg =>
      match pub with
      | Except.error e => (ReplayResult.publishError e, d)
      | Except.ok msgID =>
        let msg : PubsubMessage :=
          { id := msgID, data := originalMsg.data, attributes := originalMsg.attributes,
            publishTime := now }
        (ReplayResult.success msgID messageID, d.AddMessage msg originalMsg.topic)

/-- Folding a sequence of delivered messages into the store through
`AddMessage`, one append per element. -/
def applyMsgs (d : Dashboard) (l : List (PubsubMessage × Str)) : Dashboard :=
  l.foldl (fun acc p => acc.AddMessage p.1 p.2) d

/-- Spec characterization for the Query Engine: the match predicate of the
specification, "topic equals the topic filter exactly (when present) and
the payload text or the message identifier contains the term
case-insensitively (when present); when either filter is absent, that
predicate matches every message". -/
def searchSpecMatches (q topicFilter : Str) (m : MessageInfo) : Bool :=
  (decide (topicFilter = []) || decide (m.topic = topicFilter)) &&
    (decide (q = []) || strContains (strToLower m.data) (strToLower q) ||
      strContains (strToLower m.id) (strToLower q))

/-! Helper lemmas about the append/trim path. -/

theorem addMessage_maxMessages (d : Dashboard) (msg : PubsubMessage) (t : Str) :
    (d.AddMessage msg t).maxMessages = d.maxMessages := rfl

theorem addMessage_messages (d : Dashboard) (msg : PubsubMessage) (t : Str) :
    (d.AddMessage msg t).messages = (d.messages ++ [mkMessageInfo msg t]).rtake d.maxMessages := by
  show (if (d.messages ++ [mkMessageInfo msg t]).length > d.maxMessages then
      (d.messages ++ [mkMessageInfo msg t]).drop
        ((d.messages ++ [mkMessageInfo msg t]).length - d.maxMessages)
    else d.messages ++ [mkMessageInfo msg t]) =
    (d.messages ++ [mkMessageInfo msg t]).drop
      ((d.messages ++ [mkMessageInfo msg t]).length - d.maxMessages)
  split
  · rfl
  · next h =>
    have h0 : (d.messages ++ [mkMessageInfo msg t]).length - d.maxMessages = 0 :=
      Nat.sub_eq_zero_of_le (Nat.le_of_not_lt h)
    rw [h0, List.drop_zero]

theorem rtake_length_le (l : List α) (n : Nat) : (l.rtake n).length ≤ n := by
  show (l.drop (l.length - n)).length ≤ n
  rw [List.length_drop]
  omega

theorem rtake_of_length_le (l : List α) (n : Nat) (h : l.length ≤ n) : l.rtake n = l := by
  show l.drop (l.length - n) = l
  rw [Nat.sub_eq_zero_of_le h, List.drop_zero]

theorem take_append_take (n : Nat) (x y : List α) :
    (x ++ y.take n).take n = (x ++ y).take n := by
  rw [List.take_append_eq_append_take, List.take_append_eq_append_take, List.take_take]
  have hmin : min (n - x.length) n = n - x.length := Nat.min_eq_left (Nat.sub_le n x.length)
  rw [hmin]

theorem rtake_append_rtake (n : Nat) (a b : List α) :
    ((a.rtake n) ++ b).rtake n = (a ++ b).rtake n := by
  simp only [List.rtake_eq_reverse_take_reverse, List.reverse_append, List.reverse_reverse]
  rw [take_append_take]

theorem applyMsgs_messages (l : List (PubsubMessage × Str)) :
    ∀ d : Dashboard, d.messages.length ≤ d.maxMessages →
      (applyMsgs d l).messages =
        (d.messages ++ l.map (fun p => mkMessageInfo p.1 p.2)).rtake d.maxMessages := by
  induction l with
  | nil =>
    intro d h
    show d.messages = _
    rw [List.map_nil, List.append_nil, rtake_of_length_le _ _ h]
  | cons p rest ih =>
    intro d h
    have hstep : applyMsgs d (p :: rest) = applyMsgs (d.AddMessage p.1 p.2) rest := rfl
    have hlen : (d.AddMessage p.1 p.2).messages.length ≤ (d.AddMessage p.1 p.2).maxMessages := by
      rw [addMessage_messages, addMessage_maxMessages]
      exact rtake_length_le _ _
    rw [hstep, ih _ hlen, addMessage_messages, addMessage_maxMessages, rtake_append_rtake,
      List.append_assoc, List.map_cons, List.singleton_append]

/-! Concrete fixtures used by witness theorems. -/

/-- A sample delivered message mirroring the repository's own test data. -/
def demoMsg1 : PubsubMessage where
  id := ("m1".toList)
  data := ("hello world".toList)
  attributes := []
  publishTime := 1

/-- A second sample message. -/
def demoMsg2 : PubsubMessage where
  id := ("m2".toList)
  data := ("goodbye world".toList)
  attributes := []
  publishTime := 2

/-- A third sample message. -/
def demoMsg3 : PubsubMessage where
  id := ("m3".toList)
  data := ("hello universe".toList)
  attributes := []
  publishTime := 3

/-- A sample topic name. -/
def demoTopic : Str := "t1".toList

/-- A freshly constructed dashboard. -/
def demoDash : Dashboard := Dashboard.new ("demo".toList)

/-- A dashboard whose broadcast channel can hold no pending event, so the
non-blocking send always takes the drop branch. -/
def demoDashFullQueue : Dashboard := { Dashboard.new ("demo".toList) with broadcastCap := 0 }

/-- C1: along any sequence of appends the store length never exceeds the
configured maximum (`Dashboard.New` defaults it to 1000), and once more
than `maxMessages` messages have been appended the store holds exactly the
most recent `maxMessages` of them in insertion order (FIFO eviction). -/
theorem c1_bounded_retention (p : Str) (m : Nat) (l : List (PubsubMessage × Str)) :
    (Dashboard.new p).maxMessages = 1000 ∧
    (applyMsgs { Dashboard.new p with maxMessages := m } l).messages.length ≤ m ∧
    (l.length > m →
      (applyMsgs { Dashboard.new p with maxMessages := m } l).messages =
        (l.map (fun q => mkMessageInfo q.1 q.2)).rtake m) := by
  have hbase : ({ Dashboard.new p with maxMessages := m } : Dashboard).messages.length ≤ m := by
    show ([] : List MessageInfo).length ≤ m
    simp
  have hmain := applyMsgs_messages l { Dashboard.new p with maxMessages := m } hbase
  refine ⟨rfl, ?_, fun _ => ?_⟩
  · rw [hmain]
    exact rtake_length_le _ _
  · rw [hmain]
    show (([] : List MessageInfo) ++ _).rtake m = _
    rw [List.nil_append]

/-- Witness for C1: three appends against capacity two keep exactly the
last two messages. -/
theorem c1_witness :
    ([(demoMsg1, demoTopic), (demoMsg2, demoTopic), (demoMsg3, demoTopic)].length > 2) ∧
    (applyMsgs { Dashboard.new ("demo".toList) with maxMessages := 2 }
        [(demoMsg1, demoTopic), (demoMsg2, demoTopic), (demoMsg3, demoTopic)]).messages =
      ([(demoMsg1, demoTopic), (demoMsg2, demoTopic), (demoMsg3, demoTopic)].map
        (fun q => mkMessageInfo q.1 q.2)).rtake 2 :=
  ⟨by decide, (c1_bounded_retention ("demo".toList) 2 _).2.2 (by decide)⟩

/-- C5: the statistics snapshot reports the store length as the message
count, the last `min(20, length)` stored messages in storage order, and
the newest entry's received timestamp; on an empty store the count is
zero and the last-message time is `none` (a nil pointer, not a zero
time). -/
theorem c5_stats_content (d : Dashboard) (ti : List (Except IterErr TopicEntry))
    (si : List (Except IterErr SubEntry)) :
    (d.GetStats ti si).1.messageCount = d.messages.length ∧
    (d.GetStats ti si).1.recentMessages = d.messages.rtake 20 ∧
    (d.GetStats ti si).1.lastMessageTime = d.messages.getLast?.map (fun m => m.received) ∧
    (d.messages = [] →
      (d.GetStats ti si).1.messageCount = 0 ∧ (d.GetStats ti si).1.lastMessageTime = none) := by
  refine ⟨rfl, rfl, ?_, ?_⟩
  · show (match d.messages.getLast? with
      | some lastMsg => some lastMsg.received
      | none => none) = _
    cases d.messages.getLast? <;> rfl
  · intro h
    constructor
    · show d.messages.length = 0
      rw [h]
      rfl
    · show (match d.messages.getLast? with
        | some lastMsg => some lastMsg.received
        | none => none) = none
      rw [h]
      rfl

/-- Witness for C5: a fresh dashboard has an empty store, zero message
count and a null last-message time. -/
theorem c5_witness :
    demoDash.messages = [] ∧
    (demoDash.GetStats [] []).1.messageCount = 0 ∧
    (demoDash.GetStats [] []).1.lastMessageTime = none :=
  ⟨rfl, (c5_stats_content demoDash [] []).2.2.2 rfl⟩

/-- C6 (code evaluation): `GetStats` never propagates a listing error.
The `for { ...; if err != nil { break } }` loops discard every iterator
error, including genuine broker failures, and the function's Go `error`
result is always nil — in particular when the very first topic-listing
call fails, the caller still receives a success with an empty topic
list. -/
theorem c6_listing_error_swallowed :
    (∀ (d : Dashboard) (ti : List (Except IterErr TopicEntry))
        (si : List (Except IterErr SubEntry)), (d.GetStats ti si).2 = none) ∧
    (demoDash.GetStats [Except.error IterErr.unavailable] []).2 = none ∧
    (demoDash.GetStats [Except.error IterErr.unavailable] []).1.topics = [] :=
  ⟨fun _ _ _ => rfl, rfl, rfl⟩

/-- C7: `AddMessage` is a total function (it returns no error by type),
its store mutation is the same trim-on-append formula whatever the state
of the broadcast queue, and the broadcast enqueue is best-effort: a full
queue drops the event, a non-full queue enqueues it. -/
theorem c7_append_total_nonblocking (d : Dashboard) (msg : PubsubMessage) (t : Str) :
    (d.AddMessage msg t).messages = (d.messages ++ [mkMessageInfo msg t]).rtake d.maxMessages ∧
    (d.broadcastQueue.length ≥ d.broadcastCap →
      (d.AddMessage msg t).broadcastQueue = d.broadcastQueue) ∧
    (d.broadcastQueue.length < d.broadcastCap →
      (d.AddMessage msg t).broadcastQueue = d.broadcastQueue ++ [mkMessageInfo msg t]) := by
  refine ⟨addMessage_messages d msg t, ?_, ?_⟩
  · intro h
    show (if d.broadcastQueue.length < d.broadcastCap then
        d.broadcastQueue ++ [mkMessageInfo msg t]
      else d.broadcastQueue) = d.broadcastQueue
    rw [if_neg (by omega)]
  · intro h
    show (if d.broadcastQueue.length < d.broadcastCap then
        d.broadcastQueue ++ [mkMessageInfo msg t]
      else d.broadcastQueue) = d.broadcastQueue ++ [mkMessageInfo msg t]
    rw [if_pos h]

/-- Witness for C7: with a zero-capacity broadcast channel the event is
dropped while the store mutation is unchanged. -/
theorem c7_witness :
    demoDashFullQueue.broadcastQueue.length ≥ demoDashFullQueue.broadcastCap ∧
    (demoDashFullQueue.AddMessage demoMsg1 demoTopic).broadcastQueue =
      demoDashFullQueue.broadcastQueue ∧
    (demoDashFullQueue.AddMessage demoMsg1 demoTopic).messages =
      (demoDashFullQueue.messages ++ [mkMessageInfo demoMsg1 demoTopic]).rtake
        demoDashFullQueue.maxMessages :=
  ⟨by decide,
    (c7_append_total_nonblocking demoDashFullQueue demoMsg1 demoTopic).2.1 (by decide),
    (c7_append_total_nonblocking demoDashFullQueue demoMsg1 demoTopic).1⟩

/-- C8 (code evaluation): the stored `received` timestamp always equals
the incoming message's broker publish timestamp — `AddMessage` assigns
`Received: msg.PublishTime` and takes no ingestion clock at all, so the
two stored timestamps can never differ. -/
theorem c8_received_copies_publish_time :
    (∀ (msg : PubsubMessage) (t : Str), (mkMessageInfo msg t).received = msg.publishTime) ∧
    ((demoDash.AddMessage
        { id := ("m9".toList), data := ("hello".toList), attributes := [], publishTime := 5 }
        demoTopic).messages.map (fun mi => (mi.received, mi.publishTime))) = [(5, 5)] :=
  ⟨fun _ _ => rfl, by decide⟩

/-- Lists copied element by element are unchanged. -/
theorem copyList_eq (l : List α) : copyList l = l := by
  induction l with
  | nil => rfl
  | cons a rest ih =>
    show a :: copyList rest = a :: rest
    rw [ih]

/-- C9: `GetMessages` returns the full stored sequence (the copy equals
the source), so two calls with no intervening append — that is, on equal
store states — return equal sequences. -/
theorem c9_idempotent_read (d1 d2 : Dashboard) (h : d1.messages = d2.messages) :
    d1.GetMessages = d2.GetMessages ∧ d1.GetMessages = d1.messages := by
  constructor
  · show copyList d1.messages = copyList d2.messages
    rw [h]
  · exact copyList_eq d1.messages

/-- Witness for C9: two reads of the same dashboard agree and equal the
stored sequence. -/
theorem c9_witness :
    demoDash.GetMessages = demoDash.GetMessages ∧ demoDash.GetMessages = demoDash.messages :=
  c9_idempotent_read demoDash demoDash rfl

/-- A dashboard holding exactly one message (id "m1"). -/
def demoDashOne : Dashboard := demoDash.AddMessage demoMsg1 demoTopic

/-- The stored form of `demoMsg1`. -/
def demoOrig : MessageInfo := mkMessageInfo demoMsg1 demoTopic

/-- A dashboard whose single stored message carries the empty identifier. -/
def demoDashEmptyId : Dashboard :=
  demoDash.AddMessage { id := [], data := ("x".toList), attributes := [], publishTime := 1 }
    demoTopic

/-- C3 (amended): for every nonempty message identifier whose first match
in the store is `orig`, when the broker publish succeeds with a fresh
identifier, replay responds with the new and the original identifiers and
appends, through the normal `AddMessage` path (broadcast and eviction
included), exactly one new entry carrying the new identifier, the publish
time taken at replay, and the original payload, attributes and topic. -/
theorem c3_replay_success (d : Dashboard) (messageID newId : Str) (orig : MessageInfo)
    (now : Int) (hne : messageID ≠ []) (hfind : findFirstByID d.messages messageID = some orig)
    (hfresh : newId ≠ messageID) :
    handleReplay d messageID (Except.ok newId) now =
      (ReplayResult.success newId messageID,
        d.AddMessage
          { id := newId, data := orig.data, attributes := orig.attributes, publishTime := now }
          orig.topic) ∧
    (handleReplay d messageID (Except.ok newId) now).2.messages =
      (d.messages ++
        [({ id := newId, data := orig.data, attributes := orig.attributes, publishTime := now,
            topic := orig.topic, received := now } : MessageInfo)]).rtake d.maxMessages ∧
    newId ≠ messageID := by
  have hmain : handleReplay d messageID (Except.ok newId) now =
      (ReplayResult.success newId messageID,
        d.AddMessage
          { id := newId, data := orig.data, attributes := orig.attributes, publishTime := now }
          orig.topic) := by
    unfold handleReplay
    rw [if_neg hne, hfind]
  refine ⟨hmain, ?_, hfresh⟩
  rw [hmain]
  show (d.AddMessage _ orig.topic).messages = _
  rw [addMessage_messages]
  rfl

/-- Counterexample for C3 as stated: the empty identifier can be present
in the store (ingestion does not forbid it), yet replaying it with a
succeeding broker publish returns a missing-identifier bad request and
appends nothing; moreover nothing in the code keeps the broker-assigned
new identifier distinct from the original one — a broker echoing the old
identifier yields a success whose two identifiers coincide. -/
theorem c3_counterexample :
    (∃ mi ∈ demoDashEmptyId.messages, mi.id = []) ∧
    handleReplay demoDashEmptyId [] (Except.ok ("n1".toList)) 2 =
      (ReplayResult.badRequest, demoDashEmptyId) ∧
    (handleReplay demoDashOne ("m1".toList) (Except.ok ("m1".toList)) 9).1 =
      ReplayResult.success ("m1".toList) ("m1".toList) :=
  ⟨by decide, by decide, by decide⟩

/-- Witness for C3: replaying "m1" with broker answer "n2" succeeds and
re-records the payload on the original topic. -/
theorem c3_witness :
    handleReplay demoDashOne ("m1".toList) (Except.ok ("n2".toList)) 9 =
      (ReplayResult.success ("n2".toList) ("m1".toList),
        demoDashOne.AddMessage
          { id := ("n2".toList), data := demoOrig.data, attributes := demoOrig.attributes,
            publishTime := 9 }
          demoOrig.topic) :=
  (c3_replay_success demoDashOne ("m1".toList) ("n2".toList) demoOrig 9 (by decide) (by decide)
    (by decide)).1

/-- C4 (amended): replaying a nonempty identifier with no match yields
NotFound and leaves the store unchanged; a broker publish failure during
replay yields a publish-failure outcome, distinguishable from NotFound,
and leaves the store unchanged; replaying the empty identifier is
rejected as a missing-parameter bad request (also leaving the store
unchanged); and looking up an absent identifier returns nil rather than
crashing or fabricating a message. -/
theorem c4_error_handling (d : Dashboard) (id e : Str) (pub : Except Str Str) (now : Int)
    (orig : MessageInfo) :
    (id ≠ [] → findFirstByID d.messages id = none →
      handleReplay d id pub now = (ReplayResult.notFound, d)) ∧
    (id ≠ [] → findFirstByID d.messages id = some orig →
      handleReplay d id (Except.error e) now = (ReplayResult.publishError e, d)) ∧
    handleReplay d [] pub now = (ReplayResult.badRequest, d) ∧
    (findFirstByID d.messages id = none → d.GetMessageByID id = none) ∧
    ReplayResult.publishError e ≠ ReplayResult.notFound ∧
    ReplayResult.badRequest ≠ ReplayResult.notFound := by
  refine ⟨?_, ?_, ?_, ?_, ?_, ?_⟩
  · intro hne hnone
    unfold handleReplay
    rw [if_neg hne, hnone]
  · intro hne hsome
    unfold handleReplay
    rw [if_neg hne, hsome]
  · unfold handleReplay
    rw [if_pos rfl]
  · intro hnone
    show findFirstByID d.messages id = none
    exact hnone
  · intro h
    cases h
  · intro h
    cases h

/-- Counterexample for C4 as stated: the empty identifier is absent from
this store, yet replaying it yields the bad-request outcome, not the
NotFound the claim promises for every absent identifier. -/
theorem c4_counterexample :
    findFirstByID demoDashOne.messages [] = none ∧
    handleReplay demoDashOne [] (Except.ok ("n1".toList)) 2 =
      (ReplayResult.badRequest, demoDashOne) ∧
    ReplayResult.badRequest ≠ ReplayResult.notFound :=
  ⟨by decide, by decide, by decide⟩

/-- Witness for C4: replaying the absent identifier "zz" yields NotFound
with the store unchanged. -/
theorem c4_witness :
    handleReplay demoDashOne ("zz".toList) (Except.ok ("n1".toList)) 2 =
      (ReplayResult.notFound, demoDashOne) :=
  (c4_error_handling demoDashOne ("zz".toList) ("boom".toList) (Except.ok ("n1".toList)) 2
    demoOrig).1 (by decide) (by decide)

/-- Lowering a string preserves emptiness. -/
theorem strToLower_eq_nil_iff (q : Str) : strToLower q = [] ↔ q = [] := by
  simp [strToLower]

/-- One step of the search loop keeps a message exactly when the spec's
match predicate accepts it. -/
theorem search_step_eq (q t : Str) (acc : List MessageInfo) (msg : MessageInfo) :
    (if t ≠ [] ∧ msg.topic ≠ t then acc
     else if strToLower q ≠ [] ∧ strContains (strToLower msg.data) (strToLower q) = false ∧
         strContains (strToLower msg.id) (strToLower q) = false then acc
     else acc ++ [msg]) =
    (if searchSpecMatches q t msg = true then acc ++ [msg] else acc) := by
  by_cases h1 : t = [] <;> by_cases h2 : msg.topic = t <;> by_cases h3 : q = [] <;>
    by_cases h4 : strContains (strToLower msg.data) (strToLower q) = true <;>
    by_cases h5 : strContains (strToLower msg.id) (strToLower q) = true <;>
    simp [searchSpecMatches, strToLower_eq_nil_iff, h1, h2, h3, h4, h5]

/-- The search fold with any accumulator is that accumulator followed by
the filter under the spec's match predicate. -/
theorem search_fold_eq (q t : Str) (msgs : List MessageInfo) :
    ∀ acc : List MessageInfo,
      msgs.foldl
        (fun filtered msg =>
          if t ≠ [] ∧ msg.topic ≠ t then filtered
          else if strToLower q ≠ [] ∧
              strContains (strToLower msg.data) (strToLower q) = false ∧
              strContains (strToLower msg.id) (strToLower q) = false then filtered
          else filtered ++ [msg])
        acc = acc ++ msgs.filter (searchSpecMatches q t) := by
  induction msgs with
  | nil =>
    intro acc
    simp
  | cons m rest ih =>
    intro acc
    simp only [List.foldl_cons]
    rw [search_step_eq, ih, List.filter_cons]
    by_cases hm : searchSpecMatches q t m = true
    · simp [hm]
    · simp [hm]

/-- C2: search returns exactly the filter of the store snapshot under the
spec predicate — exact topic match when a topic filter is present and
case-insensitive substring match of the term against payload or
identifier when a term is present, each absent filter matching everything
— and the result is a subsequence of the snapshot in storage order. -/
theorem c2_search_correctness (msgs : List MessageInfo) (q t : Str) :
    handleSearchMessages msgs q t = msgs.filter (searchSpecMatches q t) ∧
    (handleSearchMessages msgs q t).Sublist msgs := by
  have heq : handleSearchMessages msgs q t = msgs.filter (searchSpecMatches q t) := by
    show msgs.foldl
        (fun filtered msg =>
          if t ≠ [] ∧ msg.topic ≠ t then filtered
          else if strToLower q ≠ [] ∧
              strContains (strToLower msg.data) (strToLower q) = false ∧
              strContains (strToLower msg.id) (strToLower q) = false then filtered
          else filtered ++ [msg])
        [] = _
    rw [search_fold_eq, List.nil_append]
  exact ⟨heq, heq ▸ List.filter_sublist msgs⟩

/-- The backwards index scan of `extractID`, characterized: over the first
`k` characters it yields the run of non-slash characters at their end
(everything after the last `'/'` seen so far), followed by the rest of
the string. -/
theorem extractIDFrom_eq (s : Str) :
    ∀ k, k ≤ s.length →
      extractIDFrom s k = (s.take k).rtakeWhile (fun c => c != '/') ++ s.drop k := by
  intro k
  induction k with
  | zero =>
    intro _
    show s = (List.take 0 s).rtakeWhile (fun c => c != '/') ++ s.drop 0
    simp
  | succ k ih =>
    intro h
    have hk : k < s.length := h
    have hsome : s[k]? = some s[k] := List.getElem?_eq_getElem hk
    have htake : s.take (k + 1) = s.take k ++ [s[k]] := by
      rw [List.take_succ, hsome]
      rfl
    have hdrop : s.drop k = s[k] :: s.drop (k + 1) := List.drop_eq_getElem_cons hk
    show (if s[k]? = some '/' then s.drop (k + 1) else extractIDFrom s k) = _
    by_cases hc : s[k] = '/'
    · rw [if_pos (by rw [hsome, hc]), htake,
        List.rtakeWhile_concat_neg _ _ _ (by simp [hc]), List.nil_append]
    · rw [if_neg (by rw [hsome]; simp [hc]), ih (Nat.le_of_lt hk), htake,
        List.rtakeWhile_concat_pos _ _ _ (by simp [hc]), List.append_assoc,
        List.singleton_append, hdrop]

/-- `extractID` keeps exactly the trailing run of non-slash characters. -/
theorem extractID_eq (s : Str) : extractID s = s.rtakeWhile (fun c => c != '/') := by
  have h := extractIDFrom_eq s s.length le_rfl
  rw [List.take_length, List.drop_length, List.append_nil] at h
  exact h

/-- When everything after some `'/'` is slash-free, the trailing
non-slash run is exactly that suffix. -/
theorem rtakeWhile_append_all (p : Char → Bool) (l : List Char) (y : Char) (hy : p y = false) :
    ∀ b : List Char, (∀ x ∈ b, p x = true) → (l ++ y :: b).rtakeWhile p = b := by
  intro b
  induction b using List.reverseRecOn with
  | nil =>
    intro _
    exact List.rtakeWhile_concat_neg _ _ _ (by simp [hy])
  | append_singleton bs x ihb =>
    intro hall
    have hsplit : l ++ y :: (bs ++ [x]) = (l ++ y :: bs) ++ [x] := by
      rw [List.append_assoc, List.cons_append]
    rw [hsplit, List.rtakeWhile_concat_pos _ _ x (hall x (by simp)),
      ihb (fun z hz => hall z (by simp [hz]))]

/-- C10: the short id derived from a full resource name is the substring
following the last `'/'` — for any decomposition of the name around its
final slash (the part after it containing no further slash), the result
is exactly that part — and a name with no `'/'` is returned unchanged. -/
theorem c10_short_id (s : Str) :
    ('/' ∉ s → extractID s = s) ∧
    (∀ a b : Str, s = a ++ '/' :: b → '/' ∉ b → extractID s = b) := by
  constructor
  · intro h
    rw [extractID_eq]
    apply List.rtakeWhile_eq_self_iff.mpr
    intro x hx
    simp only [bne_iff_ne, ne_eq]
    intro e
    exact h (e ▸ hx)
  · intro a b hs hb
    subst hs
    rw [extractID_eq]
    refine rtakeWhile_append_all _ a '/' (by simp) b (fun x hx => ?_)
    simp only [bne_iff_ne, ne_eq]
    intro e
    exact hb (e ▸ hx)

/-- Witness for C10: a full topic resource name maps to its final
segment. -/
theorem c10_witness :
    extractID ("projects/demo/topics/orders".toList) = ("orders".toList) :=
  (c10_short_id ("projects/demo/topics/orders".toList)).2 ("projects/demo/topics".toList)
    ("orders".toList) (by decide) (by decide)
